import Mathlib

/-! Verification development for the shared-object symbols-loaded deriver
(`pkg/events/derive/symbols_loaded.go` of tracee).

Go strings are byte sequences; every string handled here is ASCII, so we model
them as `List Char` (`GoStr`).  `strings.HasPrefix`, `path.Join` and
`path.Clean` from the Go standard library are embedded below over this model.
-/

/-- Model of a Go string (a sequence of characters). -/
abbrev GoStr := List Char

/-- `strings.HasPrefix s pre` from the Go standard library: tests whether the
string `s` begins with `pre`. -/
def stringsHasPrefix (s pre : GoStr) : Bool :=
  pre.isPrefixOf s

/-- Split a path into the segments between `/` separators (used to embed
`path.Clean`).  A leading, trailing or doubled separator yields empty
segments, exactly as Go's lexical scan sees them. -/
def splitSlash : GoStr → GoStr → List GoStr
  | [], acc => [acc.reverse]
  | c :: rest, acc =>
    if c = '/' then acc.reverse :: splitSlash rest []
    else splitSlash rest (c :: acc)

/-- The element-processing loop of Go's `path.Clean`: empty and `.` segments
are dropped, `..` pops the previous real segment (or is dropped at the root of
a rooted path, or kept at the front of a relative path), real segments are
pushed.  `out` holds the processed segments in reverse order. -/
def cleanSegs (rooted : Bool) : List GoStr → List GoStr → List GoStr
  | out, [] => out.reverse
  | out, c :: rest =>
    if c = [] ∨ c = ['.'] then
      cleanSegs rooted out rest
    else if c = ['.', '.'] then
      match out with
      | [] =>
        if rooted then cleanSegs rooted [] rest
        else cleanSegs rooted [['.', '.']] rest
      | last :: outRest =>
        if last = ['.', '.'] then cleanSegs rooted (c :: last :: outRest) rest
        else cleanSegs rooted outRest rest
    else
      cleanSegs rooted (c :: out) rest

/-- `path.Clean` from the Go standard library: the shortest lexically
equivalent path (single separators, no `.` segments, `..` resolved). -/
def pathClean (p : GoStr) : GoStr :=
  if p = [] then ['.']
  else
    let rooted := p.head? = some '/'
    let out := cleanSegs rooted [] (splitSlash p [])
    let s := List.intercalate ['/'] out
    if rooted then '/' :: s
    else if s = [] then ['.'] else s

/-- `path.Join` from the Go standard library, restricted to the two-argument
form used by the deriver: ignore leading empty elements, join the rest with a
separator and clean the result. -/
def pathJoin (a b : GoStr) : GoStr :=
  if a ≠ [] then pathClean (a ++ '/' :: b)
  else if b ≠ [] then pathClean b
  else []

/-- `sharedobjs.ObjID`: identity of a shared object (inode, device, ctime).
The Go fields are `uint64`/`uint32`/`uint64`; the deriver never computes on
them, so `Nat` carries them faithfully. -/
structure ObjID where
  Inode : Nat
  Device : Nat
  Ctime : Nat
deriving DecidableEq, Repr

/-- `sharedobjs.ObjInfo`: one observed load of a shared object. -/
structure ObjInfo where
  Id : ObjID
  Path : GoStr
  MountNS : Int
deriving DecidableEq, Repr

/-- The dynamic value carried by a raw event argument (Go `interface{}`),
restricted to the representations the deriver's extraction distinguishes. -/
inductive ArgValue where
  | uint64Val (v : Nat)
  | uint32Val (v : Nat)
  | stringVal (s : GoStr)
  | intVal (v : Int)
  | otherVal
deriving DecidableEq, Repr

/-- `trace.Argument`: a named argument of a raw event. -/
structure Argument where
  Name : GoStr
  Value : ArgValue
deriving DecidableEq, Repr

/-- The part of `trace.Event` the deriver reads: the named arguments and the
mount-namespace field carried outside the argument list. -/
structure Event where
  Args : List Argument
  MountNS : Int
deriving DecidableEq, Repr

/-- Errors surfaced by the deriver: the two extraction failures (naming the
field), and whatever error value the symbol resolver collaborator returned. -/
inductive GoError where
  | argNotFound (field : GoStr)
  | argWrongType (field : GoStr)
  | resolutionError (msg : GoStr)
deriving DecidableEq, Repr

/-- Decidable equality for `Except`, so concrete runs of the fallible
operations can be checked by `decide`. -/
instance {ε α : Type} [DecidableEq ε] [DecidableEq α] :
    DecidableEq (Except ε α) := fun a b =>
  match a, b with
  | .ok x, .ok y =>
    if h : x = y then .isTrue (by rw [h]) else .isFalse (by simp [h])
  | .error x, .error y =>
    if h : x = y then .isTrue (by rw [h]) else .isFalse (by simp [h])
  | .ok x, .error y => .isFalse (fun h => Except.noConfusion h)
  | .error x, .ok y => .isFalse (fun h => Except.noConfusion h)

/-- Look up a named argument's value on a raw event. -/
def lookupArg (e : Event) (name : GoStr) : Option ArgValue :=
  (e.Args.find? (fun a => a.Name == name)).map (fun a => a.Value)

/-- Modelled from the spec: `parse.ArgUint64Val` (the `pkg/events/parse`
helpers are not under `src/`) extracts the named argument as a `uint64`,
failing with an error that names the field when it is absent or has the wrong
underlying representation. -/
def ArgUint64Val (e : Event) (name : GoStr) : Except GoError Nat :=
  match lookupArg e name with
  | none => .error (.argNotFound name)
  | some (.uint64Val v) => .ok v
  | some _ => .error (.argWrongType name)

/-- Modelled from the spec: `parse.ArgUint32Val`, as `ArgUint64Val` but for a
`uint32` representation. -/
def ArgUint32Val (e : Event) (name : GoStr) : Except GoError Nat :=
  match lookupArg e name with
  | none => .error (.argNotFound name)
  | some (.uint32Val v) => .ok v
  | some _ => .error (.argWrongType name)

/-- Modelled from the spec: `parse.ArgStringVal`, as `ArgUint64Val` but for a
string representation. -/
def ArgStringVal (e : Event) (name : GoStr) : Except GoError GoStr :=
  match lookupArg e name with
  | none => .error (.argNotFound name)
  | some (.stringVal s) => .ok s
  | some _ => .error (.argWrongType name)

/-- `getSharedObjectInfo`: extract the shared-object information from a raw
loading event, failing on the first absent or mistyped field. -/
def getSharedObjectInfo (event : Event) : Except GoError ObjInfo :=
  match ArgUint64Val event "inode".toList with
  | .error err => .error err
  | .ok loadedObjectInode =>
    match ArgUint32Val event "dev".toList with
    | .error err => .error err
    | .ok loadedObjectDevice =>
      match ArgUint64Val event "ctime".toList with
      | .error err => .error err
      | .ok loadedObjectCtime =>
        match ArgStringVal event "pathname".toList with
        | .error err => .error err
        | .ok loadedObjectPath =>
          .ok { Id := { Inode := loadedObjectInode
                        Device := loadedObjectDevice
                        Ctime := loadedObjectCtime }
                Path := loadedObjectPath
                MountNS := event.MountNS }

/-- `knownLibrariesDirs`: the fixed list of known library directories, most
specific first. -/
def knownLibrariesDirs : List GoStr :=
  [ "/usr/lib/x86_64-linux-gnu/".toList
  , "/usr/lib64/".toList
  , "/usr/lib/".toList
  , "/lib64/".toList
  , "/lib/".toList ]

/-- `symbolsLoadedEventGenerator`: the deriver's state.  The
`watchedSymbols` Go map (`map[string]bool`, every inserted value `true`) is
carried as its lookup function; the symbol loader collaborator
(`sharedobjs.DynamicSymbolsLoader.GetExportedSymbols`) is carried as a
function returning either an error or an enumeration of the returned symbol
set's keys. -/
structure symbolsLoadedEventGenerator where
  soLoader : ObjInfo → Except GoError (List GoStr)
  watchedSymbols : GoStr → Bool
  pathPrefixWhitelist : List GoStr
  librariesWhitelist : List GoStr

/-- `initSymbolsLoadedEventGenerator`: build the generator, classifying each
whitelist entry by its leading character (entries starting with `/` become
path-prefix rules, the rest bare-library-name rules) and loading the watched
symbols into a presence map. -/
def initSymbolsLoadedEventGenerator
    (soLoader : ObjInfo → Except GoError (List GoStr))
    (watchedSymbols : List GoStr)
    (whitelistedLibsPrefixes : List GoStr) : symbolsLoadedEventGenerator :=
  { soLoader := soLoader
    watchedSymbols := fun sym => watchedSymbols.contains sym
    pathPrefixWhitelist :=
      whitelistedLibsPrefixes.filter (fun p => stringsHasPrefix p ['/'])
    librariesWhitelist :=
      whitelistedLibsPrefixes.filter (fun p => !stringsHasPrefix p ['/']) }

/-- `isWhitelist`: whether a shared object's path is whitelisted.  Phase one
scans the path-prefix rules; phase two, only when bare-library rules exist,
finds the first known library directory that is a prefix of the path and
tests every bare rule joined under that directory, never scanning further
directories (the `break` in the source). -/
def isWhitelist (gen : symbolsLoadedEventGenerator) (soPath : GoStr) : Bool :=
  if gen.pathPrefixWhitelist.any (fun p => stringsHasPrefix soPath p) then
    true
  else if gen.librariesWhitelist.length > 0 then
    match knownLibrariesDirs.find? (fun d => stringsHasPrefix soPath d) with
    | some libsDirectory =>
      gen.librariesWhitelist.any
        (fun wlLib => stringsHasPrefix soPath (pathJoin libsDirectory wlLib))
    | none => false
  else
    false

/-- The two components of a derived event's argument list
(`[]interface{}{path, symbols}` in the source). -/
inductive DerivedArg where
  | argStr (s : GoStr)
  | argStrList (l : List GoStr)
deriving DecidableEq, Repr

/-- `deriveArgs`: the single derivation step.  Returns the Go pair
`([]interface{}, error)` as `(Option (List DerivedArg), Option GoError)`. -/
def deriveArgs (gen : symbolsLoadedEventGenerator) (event : Event) :
    Option (List DerivedArg) × Option GoError :=
  match getSharedObjectInfo event with
  | .error err => (none, some err)
  | .ok loadingObjectInfo =>
    if isWhitelist gen loadingObjectInfo.Path then
      (none, none)
    else
      match gen.soLoader loadingObjectInfo with
      | .error err => (none, some err)
      | .ok soSyms =>
        let exportedWatchSymbols :=
          soSyms.filter (fun sym => gen.watchedSymbols sym)
        if exportedWatchSymbols.length > 0 then
          (some [DerivedArg.argStr loadingObjectInfo.Path,
                 DerivedArg.argStrList exportedWatchSymbols], none)
        else
          (none, none)

/-! Concrete sample data, mirroring the unit test's mock loader and
`generateSOLoadedEvent`, used to instantiate the theorems below. -/

/-- The symbol set the sample loader reports for every object. -/
def sampleSyms : List GoStr := ["open".toList, "sync".toList]

/-- A collaborator stub that resolves every object to `sampleSyms`. -/
def sampleLoader : ObjInfo → Except GoError (List GoStr) :=
  fun _ => Except.ok sampleSyms

/-- A collaborator stub whose resolution always fails. -/
def failingLoader : ObjInfo → Except GoError (List GoStr) :=
  fun _ => Except.error (GoError.resolutionError "elf parse failed".toList)

/-- A generator watching `open`, `close`, `write` with an empty whitelist. -/
def sampleGen : symbolsLoadedEventGenerator :=
  initSymbolsLoadedEventGenerator sampleLoader
    ["open".toList, "close".toList, "write".toList] []

/-- A raw loading event for an object at path `1.so` (as in the unit test). -/
def sampleEvent : Event :=
  { Args := [ { Name := "pathname".toList, Value := ArgValue.stringVal "1.so".toList }
            , { Name := "flags".toList, Value := ArgValue.intVal 0 }
            , { Name := "dev".toList, Value := ArgValue.uint32Val 5 }
            , { Name := "inode".toList, Value := ArgValue.uint64Val 1 }
            , { Name := "ctime".toList, Value := ArgValue.uint64Val 7 } ]
    MountNS := 4 }

/-- The object information `sampleEvent` extracts to. -/
def sampleInfo : ObjInfo :=
  { Id := { Inode := 1, Device := 5, Ctime := 7 }
    Path := "1.so".toList
    MountNS := 4 }

/-- A raw loading event for an object at path `/tmp/test.so`. -/
def sampleEventTmp : Event :=
  { Args := [ { Name := "pathname".toList, Value := ArgValue.stringVal "/tmp/test.so".toList }
            , { Name := "flags".toList, Value := ArgValue.intVal 0 }
            , { Name := "dev".toList, Value := ArgValue.uint32Val 5 }
            , { Name := "inode".toList, Value := ArgValue.uint64Val 1 }
            , { Name := "ctime".toList, Value := ArgValue.uint64Val 7 } ]
    MountNS := 4 }

/-- The object information `sampleEventTmp` extracts to. -/
def sampleInfoTmp : ObjInfo :=
  { Id := { Inode := 1, Device := 5, Ctime := 7 }
    Path := "/tmp/test.so".toList
    MountNS := 4 }
/-- A raw loading event for an object at path `/lib/test.so`. -/
def sampleEventLib : Event :=
  { Args := [ { Name := "pathname".toList, Value := ArgValue.stringVal "/lib/test.so".toList }
            , { Name := "flags".toList, Value := ArgValue.intVal 0 }
            , { Name := "dev".toList, Value := ArgValue.uint32Val 5 }
            , { Name := "inode".toList, Value := ArgValue.uint64Val 1 }
            , { Name := "ctime".toList, Value := ArgValue.uint64Val 7 } ]
    MountNS := 4 }

/-- The object information `sampleEventLib` extracts to. -/
def sampleInfoLib : ObjInfo :=
  { Id := { Inode := 1, Device := 5, Ctime := 7 }
    Path := "/lib/test.so".toList
    MountNS := 4 }
/-- Whether the named argument is present on the event with a `uint64`
underlying representation. -/
def argIsU64 (e : Event) (name : GoStr) : Bool :=
  match lookupArg e name with
  | some (ArgValue.uint64Val _) => true
  | _ => false

/-- Whether the named argument is present with a `uint32` representation. -/
def argIsU32 (e : Event) (name : GoStr) : Bool :=
  match lookupArg e name with
  | some (ArgValue.uint32Val _) => true
  | _ => false

/-- Whether the named argument is present with a string representation. -/
def argIsStr (e : Event) (name : GoStr) : Bool :=
  match lookupArg e name with
  | some (ArgValue.stringVal _) => true
  | _ => false

/-- The four required named fields, in the order `getSharedObjectInfo`
extracts them. -/
def requiredFields : List GoStr :=
  ["inode".toList, "dev".toList, "ctime".toList, "pathname".toList]

/-- Whether a required field is present on the event with the underlying
representation `getSharedObjectInfo` demands for it (`inode` and `ctime` a
`uint64`, `dev` a `uint32`, `pathname` a string). -/
def requiredFieldOk (e : Event) (name : GoStr) : Bool :=
  if name = "inode".toList then argIsU64 e name
  else if name = "dev".toList then argIsU32 e name
  else if name = "ctime".toList then argIsU64 e name
  else if name = "pathname".toList then argIsStr e name
  else false
/-- An event whose `dev` argument carries the wrong underlying
representation (an `int` instead of a `uint32`). -/
def sampleEventBadDev : Event :=
  { Args := [ { Name := "pathname".toList, Value := ArgValue.stringVal "1.so".toList }
            , { Name := "flags".toList, Value := ArgValue.intVal 0 }
            , { Name := "dev".toList, Value := ArgValue.intVal 5 }
            , { Name := "inode".toList, Value := ArgValue.uint64Val 1 }
            , { Name := "ctime".toList, Value := ArgValue.uint64Val 7 } ]
    MountNS := 4 }

/-! Step lemmas: how `deriveArgs` reduces in each of its control-flow
branches. -/

theorem deriveArgs_extract_error (gen : symbolsLoadedEventGenerator)
    (event : Event) (err : GoError)
    (h : getSharedObjectInfo event = Except.error err) :
    deriveArgs gen event = (none, some err) := by
  simp [deriveArgs, h]

theorem deriveArgs_whitelisted (gen : symbolsLoadedEventGenerator)
    (event : Event) (info : ObjInfo)
    (hext : getSharedObjectInfo event = Except.ok info)
    (hwl : isWhitelist gen info.Path = true) :
    deriveArgs gen event = (none, none) := by
  simp [deriveArgs, hext, hwl]

theorem deriveArgs_loader_error (gen : symbolsLoadedEventGenerator)
    (event : Event) (info : ObjInfo) (err : GoError)
    (hext : getSharedObjectInfo event = Except.ok info)
    (hwl : isWhitelist gen info.Path = false)
    (hres : gen.soLoader info = Except.error err) :
    deriveArgs gen event = (none, some err) := by
  simp [deriveArgs, hext, hwl, hres]

theorem deriveArgs_resolved (gen : symbolsLoadedEventGenerator)
    (event : Event) (info : ObjInfo) (soSyms : List GoStr)
    (hext : getSharedObjectInfo event = Except.ok info)
    (hwl : isWhitelist gen info.Path = false)
    (hres : gen.soLoader info = Except.ok soSyms) :
    deriveArgs gen event =
      if (soSyms.filter (fun sym => gen.watchedSymbols sym)).length > 0 then
        (some [DerivedArg.argStr info.Path,
               DerivedArg.argStrList
                 (soSyms.filter (fun sym => gen.watchedSymbols sym))], none)
      else
        (none, none) := by
  simp [deriveArgs, hext, hwl, hres]

-- Sanity checks of the Go stdlib embedding (concrete evaluations).
example : pathClean "/lib//".toList = "/lib".toList := by decide
example : pathClean "a/../b".toList = "b".toList := by decide
example : pathClean "/../a/".toList = "/a".toList := by decide
example : pathClean "a/../..".toList = "..".toList := by decide
example : pathClean "".toList = ".".toList := by decide
example : pathClean "/".toList = "/".toList := by decide
example : pathClean "./".toList = ".".toList := by decide
example : pathJoin "/lib/".toList "test".toList = "/lib/test".toList := by decide
example : pathJoin "/lib/".toList "".toList = "/lib".toList := by decide
example : pathJoin "".toList "a/b".toList = "a/b".toList := by decide
example : pathJoin "".toList "".toList = "".toList := by decide

example : getSharedObjectInfo sampleEvent = Except.ok sampleInfo := by decide
example : isWhitelist sampleGen sampleInfo.Path = false := by decide

/-! Claim theorems. -/

/-- C7: for every raw event that extracts successfully and is not
whitelisted, if the symbol resolver returns an error for the object's
identity, `deriveArgs` returns `(nil, err)` where `err` is exactly the
resolver's error, unchanged. -/
theorem resolver_error_propagated_verbatim (gen : symbolsLoadedEventGenerator)
    (event : Event) (info : ObjInfo) (err : GoError)
    (hext : getSharedObjectInfo event = Except.ok info)
    (hwl : isWhitelist gen info.Path = false)
    (hres : gen.soLoader info = Except.error err) :
    deriveArgs gen event = (none, some err) :=
  deriveArgs_loader_error gen event info err hext hwl hres

/-- Witness for C7 at a concrete event and failing loader. -/
theorem resolver_error_propagated_verbatim_witness :
    deriveArgs (initSymbolsLoadedEventGenerator failingLoader
        ["open".toList] []) sampleEvent =
      (none, some (GoError.resolutionError "elf parse failed".toList)) :=
  resolver_error_propagated_verbatim
    (initSymbolsLoadedEventGenerator failingLoader ["open".toList] [])
    sampleEvent sampleInfo (GoError.resolutionError "elf parse failed".toList)
    (by decide) (by decide) (by decide)

/-- C8: every `deriveArgs` invocation ends in exactly one of three terminal
shapes — suppressed `(nil, nil)`, derived `(args, nil)` with `args` exactly
the pair path / matched-symbol list in that order, or failed
`(nil, error)`; it never returns both a derived value and an error. -/
theorem derive_three_terminal_outcomes (gen : symbolsLoadedEventGenerator)
    (event : Event) :
    deriveArgs gen event = (none, none) ∨
    (∃ p syms, deriveArgs gen event =
      (some [DerivedArg.argStr p, DerivedArg.argStrList syms], none)) ∨
    (∃ err, deriveArgs gen event = (none, some err)) := by
  cases hext : getSharedObjectInfo event with
  | error err =>
    exact Or.inr (Or.inr ⟨err, deriveArgs_extract_error gen event err hext⟩)
  | ok info =>
    cases hwl : isWhitelist gen info.Path with
    | true => exact Or.inl (deriveArgs_whitelisted gen event info hext hwl)
    | false =>
      cases hres : gen.soLoader info with
      | error err =>
        exact Or.inr (Or.inr ⟨err, deriveArgs_loader_error gen event info err hext hwl hres⟩)
      | ok soSyms =>
        have hstep := deriveArgs_resolved gen event info soSyms hext hwl hres
        by_cases hlen :
            (soSyms.filter (fun sym => gen.watchedSymbols sym)).length > 0
        · rw [if_pos hlen] at hstep
          exact Or.inr (Or.inl ⟨info.Path, _, hstep⟩)
        · rw [if_neg hlen] at hstep
          exact Or.inl hstep

/-- C3: for every raw event that extracts successfully, if the extracted path
starts with a configured whitelist entry that has a leading path separator (a
path-prefix rule), `deriveArgs` returns `(nil, nil)`, whatever the object's
exported symbols are (the loader is arbitrary). -/
theorem path_rule_match_suppresses
    (soLoader : ObjInfo → Except GoError (List GoStr))
    (watched wl : List GoStr) (event : Event) (info : ObjInfo) (rule : GoStr)
    (hext : getSharedObjectInfo event = Except.ok info)
    (hrule : rule ∈ wl)
    (hslash : stringsHasPrefix rule ['/'] = true)
    (hmatch : stringsHasPrefix info.Path rule = true) :
    deriveArgs (initSymbolsLoadedEventGenerator soLoader watched wl) event =
      (none, none) := by
  apply deriveArgs_whitelisted _ _ _ hext
  have hmem : rule ∈
      (initSymbolsLoadedEventGenerator soLoader watched wl).pathPrefixWhitelist := by
    simp only [initSymbolsLoadedEventGenerator]
    exact List.mem_filter.mpr ⟨hrule, hslash⟩
  have hany : (initSymbolsLoadedEventGenerator soLoader
        watched wl).pathPrefixWhitelist.any
      (fun p => stringsHasPrefix info.Path p) = true :=
    List.any_eq_true.mpr ⟨rule, hmem, hmatch⟩
  simp [isWhitelist, hany]

/-- Witness for C3: `/tmp/test.so` under the rule `/tmp/test`, with a loader
that does export a watched symbol. -/
theorem path_rule_match_suppresses_witness :
    deriveArgs (initSymbolsLoadedEventGenerator sampleLoader
        ["open".toList, "close".toList, "write".toList] ["/tmp/test".toList])
      sampleEventTmp = (none, none) :=
  path_rule_match_suppresses sampleLoader
    ["open".toList, "close".toList, "write".toList] ["/tmp/test".toList]
    sampleEventTmp sampleInfoTmp "/tmp/test".toList
    (by decide) (by decide) (by decide) (by decide)

/-- C9: the result of `isWhitelist` is invariant under any permutation of the
path-prefix rule list, the bare-library-name rules held fixed. -/
theorem whitelist_path_rule_order_irrelevant
    (gen gen' : symbolsLoadedEventGenerator) (soPath : GoStr)
    (hperm : gen.pathPrefixWhitelist.Perm gen'.pathPrefixWhitelist)
    (hlibs : gen.librariesWhitelist = gen'.librariesWhitelist) :
    isWhitelist gen soPath = isWhitelist gen' soPath := by
  have hany : gen.pathPrefixWhitelist.any (fun p => stringsHasPrefix soPath p)
      = gen'.pathPrefixWhitelist.any (fun p => stringsHasPrefix soPath p) := by
    rw [Bool.eq_iff_iff]
    simp only [List.any_eq_true]
    exact ⟨fun ⟨x, hx, hp⟩ => ⟨x, hperm.mem_iff.mp hx, hp⟩,
           fun ⟨x, hx, hp⟩ => ⟨x, hperm.mem_iff.mpr hx, hp⟩⟩
  unfold isWhitelist
  rw [hany, hlibs]

/-- Witness for C9: two generators whose path-prefix rule lists are
permutations of each other agree at a concrete path. -/
theorem whitelist_path_rule_order_irrelevant_witness :
    isWhitelist (initSymbolsLoadedEventGenerator sampleLoader []
        ["/tmp/a".toList, "/tmp/b".toList, "lc".toList]) "/tmp/b/x.so".toList
      = isWhitelist (initSymbolsLoadedEventGenerator sampleLoader []
        ["/tmp/b".toList, "lc".toList, "/tmp/a".toList]) "/tmp/b/x.so".toList :=
  whitelist_path_rule_order_irrelevant
    (initSymbolsLoadedEventGenerator sampleLoader []
      ["/tmp/a".toList, "/tmp/b".toList, "lc".toList])
    (initSymbolsLoadedEventGenerator sampleLoader []
      ["/tmp/b".toList, "lc".toList, "/tmp/a".toList])
    "/tmp/b/x.so".toList (by decide) (by decide)

/-- C1: for every raw event that extracts successfully, whose path is not
whitelisted, and whose symbol resolution succeeds with symbol set `soSyms`
(a duplicate-free enumeration of the Go map's keys), `deriveArgs` returns
the pair path / matched list with the matched list equal as a set (and
duplicate-free) to the intersection of the exported-symbol set with the
watched-symbol set when that intersection is non-empty, and returns
`(nil, nil)` when the intersection is empty. -/
theorem derive_intersects_exported_with_watched
    (gen : symbolsLoadedEventGenerator) (event : Event) (info : ObjInfo)
    (soSyms : List GoStr) (hnd : soSyms.Nodup)
    (hext : getSharedObjectInfo event = Except.ok info)
    (hwl : isWhitelist gen info.Path = false)
    (hres : gen.soLoader info = Except.ok soSyms) :
    ((∃ s, s ∈ soSyms ∧ gen.watchedSymbols s = true) →
      ∃ matched, deriveArgs gen event =
          (some [DerivedArg.argStr info.Path, DerivedArg.argStrList matched],
           none) ∧
        matched.Nodup ∧
        (∀ s, s ∈ matched ↔ s ∈ soSyms ∧ gen.watchedSymbols s = true)) ∧
    ((∀ s, s ∈ soSyms → gen.watchedSymbols s = false) →
      deriveArgs gen event = (none, none)) := by
  have hstep := deriveArgs_resolved gen event info soSyms hext hwl hres
  constructor
  · rintro ⟨s, hs, hw⟩
    have hmem : s ∈ soSyms.filter (fun sym => gen.watchedSymbols sym) :=
      List.mem_filter.mpr ⟨hs, hw⟩
    have hne : soSyms.filter (fun sym => gen.watchedSymbols sym) ≠ [] :=
      List.ne_nil_of_mem hmem
    have hlen : (soSyms.filter (fun sym => gen.watchedSymbols sym)).length > 0 :=
      List.length_pos.mpr hne
    rw [if_pos hlen] at hstep
    refine ⟨soSyms.filter (fun sym => gen.watchedSymbols sym), hstep,
      hnd.filter _, fun t => ?_⟩
    exact ⟨fun ht => List.mem_filter.mp ht,
           fun ⟨h1, h2⟩ => List.mem_filter.mpr ⟨h1, h2⟩⟩
  · intro hall
    have hnil : soSyms.filter (fun sym => gen.watchedSymbols sym) = [] := by
      refine List.eq_nil_iff_forall_not_mem.mpr fun t ht => ?_
      obtain ⟨h1, h2⟩ := List.mem_filter.mp ht
      rw [hall t h1] at h2
      exact Bool.false_ne_true h2
    rw [hnil] at hstep
    simpa using hstep

/-- Witness for C1: the sample loader exports `open` and `sync`; watching
`open`, `close`, `write` derives exactly `open`. -/
theorem derive_intersects_exported_with_watched_witness :
    ∃ matched, deriveArgs sampleGen sampleEvent =
        (some [DerivedArg.argStr sampleInfo.Path, DerivedArg.argStrList matched],
         none) ∧
      matched.Nodup ∧
      (∀ s, s ∈ matched ↔ s ∈ sampleSyms ∧ sampleGen.watchedSymbols s = true) :=
  (derive_intersects_exported_with_watched sampleGen sampleEvent
      sampleInfo sampleSyms (by decide) (by decide) (by decide) (by decide)).1
    ⟨"open".toList, by decide, by decide⟩

/-- C4: for every raw event that extracts successfully, if the extracted path
lies under a known library directory and, for the first such directory `d`
(the `find?` result), the path starts with `d` directory-joined with some
configured bare-library-name rule (an entry without a leading separator),
then `deriveArgs` returns `(nil, nil)`, whatever the object's exported
symbols are (the loader is arbitrary). -/
theorem bare_library_rule_suppresses
    (soLoader : ObjInfo → Except GoError (List GoStr))
    (watched wl : List GoStr) (event : Event) (info : ObjInfo) (d r : GoStr)
    (hext : getSharedObjectInfo event = Except.ok info)
    (hd : knownLibrariesDirs.find? (fun x => stringsHasPrefix info.Path x) = some d)
    (hr : r ∈ wl)
    (hrbare : stringsHasPrefix r ['/'] = false)
    (hmatch : stringsHasPrefix info.Path (pathJoin d r) = true) :
    deriveArgs (initSymbolsLoadedEventGenerator soLoader watched wl) event =
      (none, none) := by
  apply deriveArgs_whitelisted _ _ _ hext
  have hrmem : r ∈
      (initSymbolsLoadedEventGenerator soLoader watched wl).librariesWhitelist := by
    simp only [initSymbolsLoadedEventGenerator]
    exact List.mem_filter.mpr ⟨hr, by simp [hrbare]⟩
  have hpos : 0 <
      (initSymbolsLoadedEventGenerator soLoader watched wl).librariesWhitelist.length :=
    List.length_pos.mpr (List.ne_nil_of_mem hrmem)
  cases hany : (initSymbolsLoadedEventGenerator soLoader
      watched wl).pathPrefixWhitelist.any (fun p => stringsHasPrefix info.Path p) with
  | true => simp [isWhitelist, hany]
  | false =>
    have hanylib : (initSymbolsLoadedEventGenerator soLoader
        watched wl).librariesWhitelist.any
        (fun wlLib => stringsHasPrefix info.Path (pathJoin d wlLib)) = true :=
      List.any_eq_true.mpr ⟨r, hrmem, hmatch⟩
    simp [isWhitelist, hany, hpos, hd, hanylib]

/-- Witness for C4: `/lib/test.so` with bare rule `test`, `/lib/` being the
first known library directory matching the path. -/
theorem bare_library_rule_suppresses_witness :
    deriveArgs (initSymbolsLoadedEventGenerator sampleLoader
        ["open".toList, "close".toList, "write".toList] ["test".toList])
      sampleEventLib = (none, none) :=
  bare_library_rule_suppresses sampleLoader
    ["open".toList, "close".toList, "write".toList] ["test".toList]
    sampleEventLib sampleInfoLib "/lib/".toList "test".toList
    (by decide) (by decide) (by decide) (by decide) (by decide)

/-- C5: the bare-library-name phase of the whitelist check evaluates the
rules only against the first known library directory that is a prefix of the
path: when no path-prefix rule matches and no bare rule matches joined under
that first directory `d`, `isWhitelist` returns `false` even when a broader
ancestor directory `dAnc` is also a prefix of the path and some bare rule
joined under `dAnc` would match. -/
theorem bare_rules_use_first_matching_dir_only
    (gen : symbolsLoadedEventGenerator) (soPath d dAnc r : GoStr)
    (hnopfx : ∀ p ∈ gen.pathPrefixWhitelist, stringsHasPrefix soPath p = false)
    (hd : knownLibrariesDirs.find? (fun x => stringsHasPrefix soPath x) = some d)
    (hnomatch : ∀ rl ∈ gen.librariesWhitelist,
      stringsHasPrefix soPath (pathJoin d rl) = false)
    (_hanc : dAnc ∈ knownLibrariesDirs)
    (_hancp : stringsHasPrefix soPath dAnc = true)
    (_hr : r ∈ gen.librariesWhitelist)
    (_hrmatch : stringsHasPrefix soPath (pathJoin dAnc r) = true) :
    isWhitelist gen soPath = false := by
  have hany : gen.pathPrefixWhitelist.any
      (fun p => stringsHasPrefix soPath p) = false := by
    rw [List.any_eq_false]
    intro x hx
    simp [hnopfx x hx]
  have hanylib : gen.librariesWhitelist.any
      (fun wlLib => stringsHasPrefix soPath (pathJoin d wlLib)) = false := by
    rw [List.any_eq_false]
    intro x hx
    simp [hnomatch x hx]
  simp [isWhitelist, hany, hd, hanylib]

/-- Witness for C5: under the most specific matching directory
`/usr/lib/x86_64-linux-gnu/` the rule `x86_64-linux-gnu/libfoo` does not
match, although joined under the broader ancestor `/usr/lib/` it would. -/
theorem bare_rules_use_first_matching_dir_only_witness :
    isWhitelist (initSymbolsLoadedEventGenerator sampleLoader []
        ["x86_64-linux-gnu/libfoo".toList])
      "/usr/lib/x86_64-linux-gnu/libfoo.so".toList = false :=
  bare_rules_use_first_matching_dir_only
    (initSymbolsLoadedEventGenerator sampleLoader []
      ["x86_64-linux-gnu/libfoo".toList])
    "/usr/lib/x86_64-linux-gnu/libfoo.so".toList
    "/usr/lib/x86_64-linux-gnu/".toList
    "/usr/lib/".toList
    "x86_64-linux-gnu/libfoo".toList
    (by decide) (by decide) (by decide) (by decide) (by decide) (by decide)
    (by decide)

/-- C10: an empty-string whitelist entry is classified as a bare-library-name
rule, and `isWhitelist` then reports `true` for every path that has any known
library directory as a prefix, because joining a directory with the empty
rule name yields the directory itself with its trailing separator stripped. -/
theorem empty_rule_whitelists_all_known_dirs
    (soLoader : ObjInfo → Except GoError (List GoStr))
    (watched wl : List GoStr) (soPath d : GoStr)
    (hmem : ([] : GoStr) ∈ wl)
    (hd : d ∈ knownLibrariesDirs)
    (hpfx : stringsHasPrefix soPath d = true) :
    ([] : GoStr) ∈
      (initSymbolsLoadedEventGenerator soLoader watched wl).librariesWhitelist ∧
    isWhitelist (initSymbolsLoadedEventGenerator soLoader watched wl) soPath
      = true := by
  have hbare : ([] : GoStr) ∈
      (initSymbolsLoadedEventGenerator soLoader watched wl).librariesWhitelist := by
    simp only [initSymbolsLoadedEventGenerator]
    exact List.mem_filter.mpr ⟨hmem, by decide⟩
  refine ⟨hbare, ?_⟩
  cases hany : (initSymbolsLoadedEventGenerator soLoader
      watched wl).pathPrefixWhitelist.any (fun p => stringsHasPrefix soPath p) with
  | true => simp [isWhitelist, hany]
  | false =>
    have hsome : (knownLibrariesDirs.find?
        (fun x => stringsHasPrefix soPath x)).isSome :=
      List.find?_isSome.mpr ⟨d, hd, hpfx⟩
    obtain ⟨d₀, hd₀⟩ := Option.isSome_iff_exists.mp hsome
    have hd₀p : stringsHasPrefix soPath d₀ = true := List.find?_some hd₀
    have hd₀mem : d₀ ∈ knownLibrariesDirs := List.mem_of_find?_eq_some hd₀
    have hjoin : stringsHasPrefix soPath (pathJoin d₀ []) = true := by
      have hpre : d₀.dropLast <+: soPath :=
        (List.dropLast_prefix d₀).trans (List.isPrefixOf_iff_prefix.mp hd₀p)
      have hjoineq : pathJoin d₀ [] = d₀.dropLast := by
        simp only [knownLibrariesDirs, List.mem_cons, List.not_mem_nil,
          or_false] at hd₀mem
        rcases hd₀mem with rfl | rfl | rfl | rfl | rfl <;> decide
      rw [hjoineq]
      exact List.isPrefixOf_iff_prefix.mpr hpre
    have hpos : 0 < (initSymbolsLoadedEventGenerator soLoader
        watched wl).librariesWhitelist.length :=
      List.length_pos.mpr (List.ne_nil_of_mem hbare)
    have hanylib : (initSymbolsLoadedEventGenerator soLoader
        watched wl).librariesWhitelist.any
        (fun wlLib => stringsHasPrefix soPath (pathJoin d₀ wlLib)) = true :=
      List.any_eq_true.mpr ⟨[], hbare, hjoin⟩
    simp [isWhitelist, hany, hpos, hd₀, hanylib]

/-- Witness for C10: an empty whitelist entry makes `/usr/lib/crafted.so`
whitelisted. -/
theorem empty_rule_whitelists_all_known_dirs_witness :
    ([] : GoStr) ∈ (initSymbolsLoadedEventGenerator sampleLoader
        ["open".toList] [[]]).librariesWhitelist ∧
    isWhitelist (initSymbolsLoadedEventGenerator sampleLoader
        ["open".toList] [[]]) "/usr/lib/crafted.so".toList = true :=
  empty_rule_whitelists_all_known_dirs sampleLoader ["open".toList] [[]]
    "/usr/lib/crafted.so".toList "/usr/lib/".toList
    (by decide) (by decide) (by decide)

theorem ArgUint64Val_cases (e : Event) (name : GoStr) :
    (argIsU64 e name = true ∧ ∃ v, ArgUint64Val e name = Except.ok v) ∨
    (argIsU64 e name = false ∧ lookupArg e name = none ∧
      ArgUint64Val e name = Except.error (GoError.argNotFound name)) ∨
    (argIsU64 e name = false ∧ (∃ v, lookupArg e name = some v) ∧
      ArgUint64Val e name = Except.error (GoError.argWrongType name)) := by
  unfold argIsU64 ArgUint64Val
  cases lookupArg e name with
  | none => exact Or.inr (Or.inl ⟨rfl, rfl, rfl⟩)
  | some v =>
    cases v with
    | uint64Val w => exact Or.inl ⟨rfl, w, rfl⟩
    | uint32Val w => exact Or.inr (Or.inr ⟨rfl, ⟨_, rfl⟩, rfl⟩)
    | stringVal s => exact Or.inr (Or.inr ⟨rfl, ⟨_, rfl⟩, rfl⟩)
    | intVal w => exact Or.inr (Or.inr ⟨rfl, ⟨_, rfl⟩, rfl⟩)
    | otherVal => exact Or.inr (Or.inr ⟨rfl, ⟨_, rfl⟩, rfl⟩)

theorem ArgUint32Val_cases (e : Event) (name : GoStr) :
    (argIsU32 e name = true ∧ ∃ v, ArgUint32Val e name = Except.ok v) ∨
    (argIsU32 e name = false ∧ lookupArg e name = none ∧
      ArgUint32Val e name = Except.error (GoError.argNotFound name)) ∨
    (argIsU32 e name = false ∧ (∃ v, lookupArg e name = some v) ∧
      ArgUint32Val e name = Except.error (GoError.argWrongType name)) := by
  unfold argIsU32 ArgUint32Val
  cases lookupArg e name with
  | none => exact Or.inr (Or.inl ⟨rfl, rfl, rfl⟩)
  | some v =>
    cases v with
    | uint64Val w => exact Or.inr (Or.inr ⟨rfl, ⟨_, rfl⟩, rfl⟩)
    | uint32Val w => exact Or.inl ⟨rfl, w, rfl⟩
    | stringVal s => exact Or.inr (Or.inr ⟨rfl, ⟨_, rfl⟩, rfl⟩)
    | intVal w => exact Or.inr (Or.inr ⟨rfl, ⟨_, rfl⟩, rfl⟩)
    | otherVal => exact Or.inr (Or.inr ⟨rfl, ⟨_, rfl⟩, rfl⟩)

theorem ArgStringVal_cases (e : Event) (name : GoStr) :
    (argIsStr e name = true ∧ ∃ s, ArgStringVal e name = Except.ok s) ∨
    (argIsStr e name = false ∧ lookupArg e name = none ∧
      ArgStringVal e name = Except.error (GoError.argNotFound name)) ∨
    (argIsStr e name = false ∧ (∃ v, lookupArg e name = some v) ∧
      ArgStringVal e name = Except.error (GoError.argWrongType name)) := by
  unfold argIsStr ArgStringVal
  cases lookupArg e name with
  | none => exact Or.inr (Or.inl ⟨rfl, rfl, rfl⟩)
  | some v =>
    cases v with
    | uint64Val w => exact Or.inr (Or.inr ⟨rfl, ⟨_, rfl⟩, rfl⟩)
    | uint32Val w => exact Or.inr (Or.inr ⟨rfl, ⟨_, rfl⟩, rfl⟩)
    | stringVal s => exact Or.inl ⟨rfl, s, rfl⟩
    | intVal w => exact Or.inr (Or.inr ⟨rfl, ⟨_, rfl⟩, rfl⟩)
    | otherVal => exact Or.inr (Or.inr ⟨rfl, ⟨_, rfl⟩, rfl⟩)

theorem requiredFieldOk_inode (e : Event) :
    requiredFieldOk e "inode".toList = argIsU64 e "inode".toList := by
  unfold requiredFieldOk
  rw [if_pos rfl]

theorem requiredFieldOk_dev (e : Event) :
    requiredFieldOk e "dev".toList = argIsU32 e "dev".toList := by
  unfold requiredFieldOk
  rw [if_neg (by decide), if_pos rfl]

theorem requiredFieldOk_ctime (e : Event) :
    requiredFieldOk e "ctime".toList = argIsU64 e "ctime".toList := by
  unfold requiredFieldOk
  rw [if_neg (by decide), if_neg (by decide), if_pos rfl]

theorem requiredFieldOk_pathname (e : Event) :
    requiredFieldOk e "pathname".toList = argIsStr e "pathname".toList := by
  unfold requiredFieldOk
  rw [if_neg (by decide), if_neg (by decide), if_neg (by decide), if_pos rfl]

theorem firstBadField_inode (event : Event)
    (hb1 : argIsU64 event "inode".toList = false) :
    requiredFields.find? (fun n => !requiredFieldOk event n)
      = some "inode".toList := by
  unfold requiredFields
  exact List.find?_cons_of_pos _ (by simp only [requiredFieldOk_inode, hb1]; decide)

theorem firstBadField_dev (event : Event)
    (hb1 : argIsU64 event "inode".toList = true)
    (hb2 : argIsU32 event "dev".toList = false) :
    requiredFields.find? (fun n => !requiredFieldOk event n)
      = some "dev".toList := by
  unfold requiredFields
  rw [List.find?_cons_of_neg _ (by simp only [requiredFieldOk_inode, hb1]; decide)]
  exact List.find?_cons_of_pos _ (by simp only [requiredFieldOk_dev, hb2]; decide)

theorem firstBadField_ctime (event : Event)
    (hb1 : argIsU64 event "inode".toList = true)
    (hb2 : argIsU32 event "dev".toList = true)
    (hb3 : argIsU64 event "ctime".toList = false) :
    requiredFields.find? (fun n => !requiredFieldOk event n)
      = some "ctime".toList := by
  unfold requiredFields
  rw [List.find?_cons_of_neg _ (by simp only [requiredFieldOk_inode, hb1]; decide),
      List.find?_cons_of_neg _ (by simp only [requiredFieldOk_dev, hb2]; decide)]
  exact List.find?_cons_of_pos _ (by simp only [requiredFieldOk_ctime, hb3]; decide)

theorem firstBadField_pathname (event : Event)
    (hb1 : argIsU64 event "inode".toList = true)
    (hb2 : argIsU32 event "dev".toList = true)
    (hb3 : argIsU64 event "ctime".toList = true)
    (hb4 : argIsStr event "pathname".toList = false) :
    requiredFields.find? (fun n => !requiredFieldOk event n)
      = some "pathname".toList := by
  unfold requiredFields
  rw [List.find?_cons_of_neg _ (by simp only [requiredFieldOk_inode, hb1]; decide),
      List.find?_cons_of_neg _ (by simp only [requiredFieldOk_dev, hb2]; decide),
      List.find?_cons_of_neg _ (by simp only [requiredFieldOk_ctime, hb3]; decide)]
  exact List.find?_cons_of_pos _ (by simp only [requiredFieldOk_pathname, hb4]; decide)

/-- C6: for every raw event in which any of the four required named fields
(`inode`, `dev`, `ctime`, `pathname`) is absent or has the wrong underlying
representation, `deriveArgs` returns `(nil, error)` where the error
identifies the failing field: the named field is the first one (in
extraction order) that is not present with its required representation, the
error is `argNotFound` exactly when that field is absent from the event and
`argWrongType` exactly when it is present with the wrong representation; and
neither the whitelist check nor the resolution nor the intersection is
performed: two generators with arbitrary (different) whitelists and loaders
return the same result. -/
theorem extraction_failure_names_field_and_aborts
    (gen gen' : symbolsLoadedEventGenerator) (event : Event)
    (hbad : ¬(argIsU64 event "inode".toList = true ∧
              argIsU32 event "dev".toList = true ∧
              argIsU64 event "ctime".toList = true ∧
              argIsStr event "pathname".toList = true)) :
    ∃ name,
      requiredFields.find? (fun n => !requiredFieldOk event n) = some name ∧
      ((lookupArg event name = none ∧
        deriveArgs gen event = (none, some (GoError.argNotFound name)) ∧
        deriveArgs gen' event = (none, some (GoError.argNotFound name))) ∨
       ((∃ v, lookupArg event name = some v) ∧
        deriveArgs gen event = (none, some (GoError.argWrongType name)) ∧
        deriveArgs gen' event = (none, some (GoError.argWrongType name)))) := by
  rcases ArgUint64Val_cases event "inode".toList with
    ⟨hb1, v1, h1⟩ | ⟨hb1, hl1, h1⟩ | ⟨hb1, hl1, h1⟩
  · rcases ArgUint32Val_cases event "dev".toList with
      ⟨hb2, v2, h2⟩ | ⟨hb2, hl2, h2⟩ | ⟨hb2, hl2, h2⟩
    · rcases ArgUint64Val_cases event "ctime".toList with
        ⟨hb3, v3, h3⟩ | ⟨hb3, hl3, h3⟩ | ⟨hb3, hl3, h3⟩
      · rcases ArgStringVal_cases event "pathname".toList with
          ⟨hb4, s4, h4⟩ | ⟨hb4, hl4, h4⟩ | ⟨hb4, hl4, h4⟩
        · exact absurd ⟨hb1, hb2, hb3, hb4⟩ hbad
        · exact ⟨"pathname".toList,
            firstBadField_pathname event hb1 hb2 hb3 hb4,
            Or.inl ⟨hl4,
              deriveArgs_extract_error _ _ _
                (by simp only [getSharedObjectInfo, h1, h2, h3, h4]),
              deriveArgs_extract_error _ _ _
                (by simp only [getSharedObjectInfo, h1, h2, h3, h4])⟩⟩
        · exact ⟨"pathname".toList,
            firstBadField_pathname event hb1 hb2 hb3 hb4,
            Or.inr ⟨hl4,
              deriveArgs_extract_error _ _ _
                (by simp only [getSharedObjectInfo, h1, h2, h3, h4]),
              deriveArgs_extract_error _ _ _
                (by simp only [getSharedObjectInfo, h1, h2, h3, h4])⟩⟩
      · exact ⟨"ctime".toList, firstBadField_ctime event hb1 hb2 hb3,
          Or.inl ⟨hl3,
            deriveArgs_extract_error _ _ _
              (by simp only [getSharedObjectInfo, h1, h2, h3]),
            deriveArgs_extract_error _ _ _
              (by simp only [getSharedObjectInfo, h1, h2, h3])⟩⟩
      · exact ⟨"ctime".toList, firstBadField_ctime event hb1 hb2 hb3,
          Or.inr ⟨hl3,
            deriveArgs_extract_error _ _ _
              (by simp only [getSharedObjectInfo, h1, h2, h3]),
            deriveArgs_extract_error _ _ _
              (by simp only [getSharedObjectInfo, h1, h2, h3])⟩⟩
    · exact ⟨"dev".toList, firstBadField_dev event hb1 hb2,
        Or.inl ⟨hl2,
          deriveArgs_extract_error _ _ _
            (by simp only [getSharedObjectInfo, h1, h2]),
          deriveArgs_extract_error _ _ _
            (by simp only [getSharedObjectInfo, h1, h2])⟩⟩
    · exact ⟨"dev".toList, firstBadField_dev event hb1 hb2,
        Or.inr ⟨hl2,
          deriveArgs_extract_error _ _ _
            (by simp only [getSharedObjectInfo, h1, h2]),
          deriveArgs_extract_error _ _ _
            (by simp only [getSharedObjectInfo, h1, h2])⟩⟩
  · exact ⟨"inode".toList, firstBadField_inode event hb1,
      Or.inl ⟨hl1,
        deriveArgs_extract_error _ _ _ (by simp only [getSharedObjectInfo, h1]),
        deriveArgs_extract_error _ _ _ (by simp only [getSharedObjectInfo, h1])⟩⟩
  · exact ⟨"inode".toList, firstBadField_inode event hb1,
      Or.inr ⟨hl1,
        deriveArgs_extract_error _ _ _ (by simp only [getSharedObjectInfo, h1]),
        deriveArgs_extract_error _ _ _ (by simp only [getSharedObjectInfo, h1])⟩⟩

/-- Witness for C6 at an event whose `dev` field is present but mistyped,
under two different generators: the first failing field is pinned to `dev`
and the error to `argWrongType`. -/
theorem extraction_failure_names_field_and_aborts_witness :
    requiredFields.find? (fun n => !requiredFieldOk sampleEventBadDev n)
      = some "dev".toList ∧
    deriveArgs sampleGen sampleEventBadDev =
      (none, some (GoError.argWrongType "dev".toList)) ∧
    deriveArgs (initSymbolsLoadedEventGenerator failingLoader
        ["close".toList] ["/tmp".toList]) sampleEventBadDev =
      (none, some (GoError.argWrongType "dev".toList)) := by
  obtain ⟨name, hfind, hcase⟩ :=
    extraction_failure_names_field_and_aborts sampleGen
      (initSymbolsLoadedEventGenerator failingLoader
        ["close".toList] ["/tmp".toList])
      sampleEventBadDev (by decide)
  have hdev : requiredFields.find?
      (fun n => !requiredFieldOk sampleEventBadDev n) = some "dev".toList := by
    decide
  have hname : name = "dev".toList := by
    rw [hdev] at hfind
    exact (Option.some.inj hfind).symm
  subst hname
  rcases hcase with ⟨hnone, _, _⟩ | ⟨_, hd1, hd2⟩
  · exact absurd hnone (by decide)
  · exact ⟨hdev, hd1, hd2⟩
